import Mathlib

/-!
Verification of the yield-curve bootstrapping engine
(`src/lib/bootstrapping.ts`).

Shallow embedding conventions:
* JavaScript numbers are modelled as exact rationals `ℚ`; the engine's
  inputs are finite real rates (the data model excludes infinite rates),
  and every claim checked here is either structural or evaluated on
  non-degenerate rational inputs.
* A nullable rate (`number | null`, or an absent key) is `Option ℚ`
  with `none` for null/undefined.
* `Math.exp` is an uninterpreted parameter `exp : ℚ → ℚ`; every theorem
  about the Nelson-Siegel fitter is proved for an arbitrary `exp`.
* The per-method estimate lists carry `Option ℚ`: `none` stands for a
  non-finite (NaN/Infinity) JavaScript value, produced by the spline's
  `n < 2` guard and by the default `switch` branch; the merge step drops
  `none` exactly as the source drops non-finite values.
-/

/-- Embeds `CountryYieldData` from `src/types/yield.ts`: a country name, a
slug, and a nullable rate per maturity label (`Record<string, number | null>`;
`none` models both `null` and an absent key). -/
structure CountryYieldData where
  country : String
  slug : String
  rates : String → Option ℚ
  lastUpdated : Option String
  error : Option String

/-- Value of a JavaScript decimal-digit capture: `parseInt(ds, 10)` on a
nonempty all-digit string. -/
def digitsToNat (cs : List Char) : Nat :=
  cs.foldl (fun n c => 10 * n + (c.toNat - 48)) 0

/-- Strips leading and trailing whitespace from a character list; models
`String.prototype.trim` on the ASCII labels the engine handles. -/
def trimChars (cs : List Char) : List Char :=
  ((cs.dropWhile Char.isWhitespace).reverse.dropWhile Char.isWhitespace).reverse

/-- Models `maturity.toUpperCase().trim()` (`bootstrapping.ts:22`) as a
character list: uppercase every character, then trim whitespace. -/
def normalizeLabel (s : String) : List Char :=
  trimChars (s.toList.map Char.toUpper)

/-- Embeds one anchored regex match `^(\d+)U$` from `maturityToYears`:
succeeds when the character list is a nonempty digit string followed by the
unit character `u`, returning the parsed number. -/
def matchUnit (cs : List Char) (u : Char) : Option Nat :=
  if cs.getLast? = some u ∧ cs.dropLast ≠ [] ∧ cs.dropLast.all Char.isDigit then
    some (digitsToNat cs.dropLast)
  else
    none

/-- Embeds `maturityToYears` (`bootstrapping.ts:21-43`): normalizes case and
whitespace, then tries the month, year and week patterns in the source's
order; `none` models the `NaN` failure sentinel. -/
def maturityToYears (maturity : String) : Option ℚ :=
  let cs := normalizeLabel maturity
  match matchUnit cs 'M' with
  | some n => some ((n : ℚ) / 12)
  | none =>
    match matchUnit cs 'Y' with
    | some n => some (n : ℚ)
    | none =>
      match matchUnit cs 'W' with
      | some n => some ((n : ℚ) / 52)
      | none => none

/-- Embeds `linearInterpolate` (`bootstrapping.ts:49-57`). -/
def linearInterpolate (x x1 y1 x2 y2 : ℚ) : ℚ :=
  y1 + ((x - x1) * (y2 - y1)) / (x2 - x1)

/-- Embeds the bracket-search loop of the `'linear'` case of
`bootstrapYieldCurve` (`bootstrapping.ts:318-325`): scans the index list and
returns the first `i` with `knownX[i] ≤ x ≤ knownX[i+1]`, defaulting to `0`
when no bracket is found (the loop leaves `lowerIdx = 0`). -/
def findLowerIdxAux (knownX : List ℚ) (x : ℚ) : List Nat → Nat
  | [] => 0
  | i :: rest =>
    if knownX.getD i 0 ≤ x ∧ x ≤ knownX.getD (i + 1) 0 then i
    else findLowerIdxAux knownX x rest

/-- The bracket index used by the `'linear'` method: the JS loop runs
`i = 0 .. knownX.length - 2`. -/
def findLowerIdx (knownX : List ℚ) (x : ℚ) : Nat :=
  findLowerIdxAux knownX x (List.range (knownX.length - 1))

/-- Embeds the segment-search loop of `cubicSplineInterpolate`
(`bootstrapping.ts:114-129`), including its defensive clamps for
out-of-range `x` and the `i = 0` default when the loop falls through. -/
def findSegmentAux (knownX : List ℚ) (n : Nat) (x : ℚ) : List Nat → Nat
  | [] => 0
  | j :: rest =>
    if knownX.getD j 0 ≤ x ∧ x ≤ knownX.getD (j + 1) 0 then j
    else if x < knownX.getD 0 0 then 0
    else if knownX.getD (n - 1) 0 < x then n - 2
    else findSegmentAux knownX n x rest

/-- The segment index for spline evaluation: the JS loop runs
`j = 0 .. n - 2`. -/
def findSegment (knownX : List ℚ) (n : Nat) (x : ℚ) : Nat :=
  findSegmentAux knownX n x (List.range (n - 1))

/-- Embeds `cubicSplineInterpolate` (`bootstrapping.ts:64-151`): natural
cubic spline via the Thomas algorithm. `none` models the NaN batch returned
for fewer than 2 points; with exactly 2 points it falls back to
`linearInterpolate`. The forward sweep accumulates the `l`, `mu`, `z`
arrays exactly as the JS pushes them (the trailing `l.push(1)` of the
source is dead and omitted; `l` itself is only read at the index just
pushed, which is the local `li`). -/
def cubicSplineInterpolate (knownX knownY targetX : List ℚ) : List (Option ℚ) :=
  let n := knownX.length
  if n < 2 then targetX.map (fun _ => none)
  else if n = 2 then
    targetX.map (fun x =>
      some (linearInterpolate x (knownX.getD 0 0) (knownY.getD 0 0)
        (knownX.getD 1 0) (knownY.getD 1 0)))
  else
    let h := (List.range (n - 1)).map (fun i => knownX.getD (i + 1) 0 - knownX.getD i 0)
    let alpha := 0 :: (List.range' 1 (n - 2)).map (fun i =>
      (3 / h.getD i 0) * (knownY.getD (i + 1) 0 - knownY.getD i 0) -
      (3 / h.getD (i - 1) 0) * (knownY.getD i 0 - knownY.getD (i - 1) 0))
    let muz := (List.range' 1 (n - 2)).foldl
      (fun (s : List ℚ × List ℚ) i =>
        let li := 2 * (knownX.getD (i + 1) 0 - knownX.getD (i - 1) 0) -
          h.getD (i - 1) 0 * s.1.getD (i - 1) 0
        let mui := h.getD i 0 / li
        let zi := (alpha.getD i 0 - h.getD (i - 1) 0 * s.2.getD (i - 1) 0) / li
        (s.1 ++ [mui], s.2 ++ [zi]))
      ([0], [0])
    let mu := muz.1
    let z := muz.2 ++ [0]
    let M := (List.range (n - 1)).foldr
      (fun j acc => (z.getD j 0 - mu.getD j 0 * acc.headD 0) :: acc) [0]
    targetX.map (fun x =>
      let i := findSegment knownX n x
      let hi := h.getD i 0
      let xi := knownX.getD i 0
      let xi1 := knownX.getD (i + 1) 0
      let yi := knownY.getD i 0
      let yi1 := knownY.getD (i + 1) 0
      let Mi := M.getD i 0
      let Mi1 := M.getD (i + 1) 0
      let a := (xi1 - x) / hi
      let b := (x - xi) / hi
      some (a * yi + b * yi1 +
        ((a * a * a - a) * Mi + (b * b * b - b) * Mi1) * (hi * hi) / 6))

/-- Embeds `NelsonSiegelParams` (`bootstrapping.ts:167-172`); also reused,
as in the source, as the record of accumulated gradients. -/
structure NelsonSiegelParams where
  beta0 : ℚ
  beta1 : ℚ
  beta2 : ℚ
  lambda : ℚ

/-- Embeds `nelsonSiegelYield` (`bootstrapping.ts:174-185`); `exp` stands
for `Math.exp`. -/
def nelsonSiegelYield (exp : ℚ → ℚ) (tau : ℚ) (params : NelsonSiegelParams) : ℚ :=
  if tau ≤ 0 then params.beta0 + params.beta1
  else
    let tauLambda := tau / params.lambda
    let expTerm := exp (-tauLambda)
    let factor1 := (1 - expTerm) / tauLambda
    let factor2 := factor1 - expTerm
    params.beta0 + params.beta1 * factor1 + params.beta2 * factor2

/-- `epsilon = 0.0001` (`bootstrapping.ts:218`). -/
def nsEpsilon : ℚ := 0.0001

/-- `learningRate = 0.01` (`bootstrapping.ts:216`). -/
def nsLearningRate : ℚ := 0.01

/-- Central finite-difference gradient of the model output with respect to
one parameter (`bootstrapping.ts:231-236`); `perturb p d` is the record
with that parameter shifted by `d`. -/
def nsGrad (exp : ℚ → ℚ) (t : ℚ) (p : NelsonSiegelParams)
    (perturb : NelsonSiegelParams → ℚ → NelsonSiegelParams) : ℚ :=
  (nelsonSiegelYield exp t (perturb p nsEpsilon) -
    nelsonSiegelYield exp t (perturb p (-nsEpsilon))) / (2 * nsEpsilon)

/-- Perturbation of `beta0` (`{...params, beta0: params.beta0 ± ε}`). -/
def nsPerturb0 (p : NelsonSiegelParams) (d : ℚ) : NelsonSiegelParams :=
  { p with beta0 := p.beta0 + d }

/-- Perturbation of `beta1`. -/
def nsPerturb1 (p : NelsonSiegelParams) (d : ℚ) : NelsonSiegelParams :=
  { p with beta1 := p.beta1 + d }

/-- Perturbation of `beta2`. -/
def nsPerturb2 (p : NelsonSiegelParams) (d : ℚ) : NelsonSiegelParams :=
  { p with beta2 := p.beta2 + d }

/-- Perturbation of `lambda`. -/
def nsPerturbL (p : NelsonSiegelParams) (d : ℚ) : NelsonSiegelParams :=
  { p with lambda := p.lambda + d }

/-- One iteration of the gradient-descent loop of `fitNelsonSiegel`
(`bootstrapping.ts:220-251`): accumulates the four gradients and the total
squared error over all points, then applies the parameter update with the
`Math.max(0.1, ·)` clamp on `lambda`. Returns the updated parameters and
the iteration's `totalError`. -/
def nsStep (exp : ℚ → ℚ) (maturities yields : List ℚ)
    (params : NelsonSiegelParams) : NelsonSiegelParams × ℚ :=
  let n := maturities.length
  let acc := (List.range n).foldl
    (fun (s : NelsonSiegelParams × ℚ) i =>
      let t := maturities.getD i 0
      let predicted := nelsonSiegelYield exp t params
      let error := predicted - yields.getD i 0
      ({ beta0 := s.1.beta0 + 2 * error * nsGrad exp t params nsPerturb0,
         beta1 := s.1.beta1 + 2 * error * nsGrad exp t params nsPerturb1,
         beta2 := s.1.beta2 + 2 * error * nsGrad exp t params nsPerturb2,
         lambda := s.1.lambda + 2 * error * nsGrad exp t params nsPerturbL },
       s.2 + error * error))
    (⟨0, 0, 0, 0⟩, 0)
  ({ beta0 := params.beta0 - nsLearningRate * acc.1.beta0 / n,
     beta1 := params.beta1 - nsLearningRate * acc.1.beta1 / n,
     beta2 := params.beta2 - nsLearningRate * acc.1.beta2 / n,
     lambda := max 0.1 (params.lambda - nsLearningRate * acc.1.lambda / n) },
   acc.2)

/-- The iteration loop of `fitNelsonSiegel` with its early stop: the break
condition `totalError / n < 0.0001` is tested after the update, exactly as
in the source. -/
def nsIterate (exp : ℚ → ℚ) (maturities yields : List ℚ) :
    Nat → NelsonSiegelParams → NelsonSiegelParams
  | 0, p => p
  | Nat.succ k, p =>
    if (nsStep exp maturities yields p).2 / (maturities.length : ℚ) < 0.0001 then
      (nsStep exp maturities yields p).1
    else nsIterate exp maturities yields k (nsStep exp maturities yields p).1

/-- Embeds `fitNelsonSiegel` (`bootstrapping.ts:191-254`): the `< 3` point
fallback returns the flat curve with `lambda = 1.5`; otherwise runs at most
500 gradient-descent iterations from the heuristic initial guess. -/
def fitNelsonSiegel (exp : ℚ → ℚ) (maturities yields : List ℚ) : NelsonSiegelParams :=
  let n := maturities.length
  if n < 3 then
    { beta0 := yields.foldl (· + ·) 0 / (n : ℚ), beta1 := 0, beta2 := 0, lambda := 1.5 }
  else
    let shortYield := yields.getD 0 0
    let longYield := yields.getD (n - 1) 0
    let midIndex := n / 2
    let midYield := yields.getD midIndex 0
    nsIterate exp maturities yields 500
      { beta0 := longYield, beta1 := shortYield - longYield,
        beta2 := 2 * midYield - shortYield - longYield, lambda := 1.5 }

/-- One known point of the curve, as collected by the orchestrator
(`bootstrapping.ts:268`). -/
structure KnownPoint where
  maturity : String
  years : ℚ
  rate : ℚ

/-- Embeds the known-point extraction loop of `bootstrapYieldCurve`
(`bootstrapping.ts:268-278`): every label of `allMaturities` with a
non-null rate and a parseable year-fraction, in list order. -/
def extractKnownPoints (countryData : CountryYieldData)
    (allMaturities : List String) : List KnownPoint :=
  allMaturities.filterMap (fun maturity =>
    match countryData.rates maturity with
    | some rate =>
      match maturityToYears maturity with
      | some years => some ⟨maturity, years, rate⟩
      | none => none
    | none => none)

instance : DecidableRel (fun a b : KnownPoint => a.years ≤ b.years) :=
  fun a b => inferInstanceAs (Decidable (a.years ≤ b.years))

/-- The known points sorted ascending by year-fraction
(`knownPoints.sort((a, b) => a.years - b.years)`, `bootstrapping.ts:286`);
a stable ascending sort, as the source's numeric comparator performs. -/
def sortedKnown (countryData : CountryYieldData)
    (allMaturities : List String) : List KnownPoint :=
  List.insertionSort (fun a b => a.years ≤ b.years)
    (extractKnownPoints countryData allMaturities)

/-- `knownX` (`bootstrapping.ts:288`). -/
def knownXs (countryData : CountryYieldData) (allMaturities : List String) : List ℚ :=
  (sortedKnown countryData allMaturities).map KnownPoint.years

/-- `knownY` (`bootstrapping.ts:289`). -/
def knownYs (countryData : CountryYieldData) (allMaturities : List String) : List ℚ :=
  (sortedKnown countryData allMaturities).map KnownPoint.rate

/-- `minYears = knownX[0]` (`bootstrapping.ts:293`). -/
def minYears (countryData : CountryYieldData) (allMaturities : List String) : ℚ :=
  (knownXs countryData allMaturities).getD 0 0

/-- `maxYears = knownX[knownX.length - 1]` (`bootstrapping.ts:294`). -/
def maxYears (countryData : CountryYieldData) (allMaturities : List String) : ℚ :=
  (knownXs countryData allMaturities).getD
    ((knownXs countryData allMaturities).length - 1) 0

/-- Embeds the target-selection loop of `bootstrapYieldCurve`
(`bootstrapping.ts:296-305`): the labels with a null rate whose
year-fraction parses and satisfies `minYears ≤ years ≤ maxYears`
(the source's inclusive `years >= minYears && years <= maxYears`). -/
def targetsOf (countryData : CountryYieldData)
    (allMaturities : List String) : List (String × ℚ) :=
  allMaturities.filterMap (fun maturity =>
    match countryData.rates maturity with
    | some _ => none
    | none =>
      match maturityToYears maturity with
      | some years =>
        if minYears countryData allMaturities ≤ years ∧
            years ≤ maxYears countryData allMaturities then
          some (maturity, years)
        else none
      | none => none)

/-- `Math.round(rate * 100) / 100` (`bootstrapping.ts:357`); Lean's `round`
on `ℚ` rounds half toward positive infinity, as `Math.round` does. -/
def round2 (x : ℚ) : ℚ :=
  (round (x * 100) : ℚ) / 100

/-- Embeds the merge loop of `bootstrapYieldCurve`
(`bootstrapping.ts:352-359`): walks the target list in order against the
estimate list; a `some` estimate (a finite JS value) is rounded to 2
decimals and written at the target's label, a `none` estimate (non-finite,
or a missing array entry when the estimate list is shorter) is skipped
and the entry keeps its previous — null — value. -/
def mergeRates (rates : String → Option ℚ) :
    List (String × ℚ) → List (Option ℚ) → String → Option ℚ
  | [], _ => rates
  | _ :: ms, [] => mergeRates rates ms []
  | _ :: ms, none :: ests => mergeRates rates ms ests
  | (m, _) :: ms, some r :: ests =>
    mergeRates (fun k => if k = m then some (round2 r) else rates k) ms ests

/-- Embeds the `switch (method)` dispatch of `bootstrapYieldCurve`
(`bootstrapping.ts:315-350`). The method is a runtime string so that the
default branch — every value other than the three method names, which
produces `NaN` for every target — is representable. -/
def computeEstimates (exp : ℚ → ℚ) (method : String)
    (knownX knownY targetX : List ℚ) : List (Option ℚ) :=
  if method = "linear" then
    targetX.map (fun x =>
      let lowerIdx := findLowerIdx knownX x
      some (linearInterpolate x (knownX.getD lowerIdx 0) (knownY.getD lowerIdx 0)
        (knownX.getD (lowerIdx + 1) 0) (knownY.getD (lowerIdx + 1) 0)))
  else if method = "cubic-spline" then
    cubicSplineInterpolate knownX knownY targetX
  else if method = "nelson-siegel" then
    let params := fitNelsonSiegel exp knownX knownY
    targetX.map (fun x => some (nelsonSiegelYield exp x params))
  else
    targetX.map (fun _ => none)

/-- Embeds `bootstrapYieldCurve` (`bootstrapping.ts:262-365`): return the
input unchanged when fewer than 2 known points or no in-range targets
exist; otherwise estimate every target with the selected method and merge
the finite results into a copy of the rate map. -/
def bootstrapYieldCurve (exp : ℚ → ℚ) (countryData : CountryYieldData)
    (allMaturities : List String) (method : String) : CountryYieldData :=
  if (extractKnownPoints countryData allMaturities).length < 2 then countryData
  else if (targetsOf countryData allMaturities).length = 0 then countryData
  else
    { countryData with
      rates := mergeRates countryData.rates (targetsOf countryData allMaturities)
        (computeEstimates exp method (knownXs countryData allMaturities)
          (knownYs countryData allMaturities)
          ((targetsOf countryData allMaturities).map Prod.snd)) }

/-- Embeds `bootstrapAllYieldCurves` (`bootstrapping.ts:370-376`). -/
def bootstrapAllYieldCurves (exp : ℚ → ℚ) (data : List CountryYieldData)
    (maturities : List String) (method : String) : List CountryYieldData :=
  data.map (fun country => bootstrapYieldCurve exp country maturities method)

/-! ### Structural lemmas about the merge step and target selection -/

/-- The merge never touches a label that does not occur in the target list. -/
theorem mergeRates_not_mem (rates : String → Option ℚ) (ms : List (String × ℚ))
    (ests : List (Option ℚ)) (l : String) (h : ∀ p ∈ ms, p.1 ≠ l) :
    mergeRates rates ms ests l = rates l := by
  induction ms generalizing rates ests with
  | nil => rfl
  | cons p ms ih =>
    obtain ⟨m, y⟩ := p
    have hm : m ≠ l := h (m, y) (List.mem_cons_self _ _)
    have h' : ∀ p ∈ ms, p.1 ≠ l := fun p hp => h p (List.mem_cons_of_mem _ hp)
    cases ests with
    | nil => simpa only [mergeRates] using ih rates [] h'
    | cons e ests =>
      cases e with
      | none => simpa only [mergeRates] using ih rates ests h'
      | some r =>
        simp only [mergeRates]
        rw [ih _ ests h', if_neg (fun he => hm he.symm)]

/-- When every estimate is non-finite (`none`), the merge writes nothing. -/
theorem mergeRates_allNone (rates : String → Option ℚ) (ms : List (String × ℚ))
    (ests : List (Option ℚ)) (h : ∀ e ∈ ests, e = none) :
    mergeRates rates ms ests = rates := by
  induction ms generalizing ests with
  | nil => rfl
  | cons p ms ih =>
    obtain ⟨m, y⟩ := p
    cases ests with
    | nil => simpa only [mergeRates] using ih [] (by simp)
    | cons e ests =>
      have he : e = none := h e (List.mem_cons_self _ _)
      subst he
      simpa only [mergeRates] using ih ests (fun e he => h e (List.mem_cons_of_mem _ he))

/-- Every entry of the merged map is either the original entry or a written
(`some`) value: the merge never turns a known entry into null. -/
theorem mergeRates_cases (rates : String → Option ℚ) (ms : List (String × ℚ))
    (ests : List (Option ℚ)) (l : String) :
    mergeRates rates ms ests l = rates l ∨ ∃ q, mergeRates rates ms ests l = some q := by
  induction ms generalizing rates ests with
  | nil => exact Or.inl rfl
  | cons p ms ih =>
    obtain ⟨m, y⟩ := p
    cases ests with
    | nil =>
      rcases ih rates [] with h | h
      · exact Or.inl (by simpa only [mergeRates] using h)
      · exact Or.inr (by simpa only [mergeRates] using h)
    | cons e ests =>
      cases e with
      | none =>
        rcases ih rates ests with h | h
        · exact Or.inl (by simpa only [mergeRates] using h)
        · exact Or.inr (by simpa only [mergeRates] using h)
      | some r =>
        rcases ih (fun k => if k = m then some (round2 r) else rates k) ests with h | h
        · by_cases hlm : l = m
          · refine Or.inr ⟨round2 r, ?_⟩
            simp only [mergeRates]
            rw [h, if_pos hlm]
          · refine Or.inl ?_
            simp only [mergeRates]
            rw [h, if_neg hlm]
        · exact Or.inr (by simpa only [mergeRates] using h)

/-- Characterization of the target list: exactly the labels of the maturity
list with a null rate whose year-fraction parses into the closed interval
bounded by the smallest and largest known year-fractions. -/
theorem mem_targetsOf (curve : CountryYieldData) (mats : List String)
    (l : String) (y : ℚ) :
    (l, y) ∈ targetsOf curve mats ↔
      l ∈ mats ∧ curve.rates l = none ∧ maturityToYears l = some y ∧
        minYears curve mats ≤ y ∧ y ≤ maxYears curve mats := by
  simp only [targetsOf, List.mem_filterMap]
  constructor
  · rintro ⟨m, hm, hf⟩
    split at hf
    next r heq => exact absurd hf (by simp)
    next heq =>
      split at hf
      next years heq2 =>
        split at hf
        next hcond =>
          have hml : m = l := congrArg Prod.fst (Option.some.inj hf)
          have hyy : years = y := congrArg Prod.snd (Option.some.inj hf)
          subst hml; subst hyy
          exact ⟨hm, heq, heq2, hcond.1, hcond.2⟩
        next hcond => exact absurd hf (by simp)
      next heq2 => exact absurd hf (by simp)
  · rintro ⟨hm, hr, hp, h1, h2⟩
    refine ⟨l, hm, ?_⟩
    rw [hr, hp]
    show (if minYears curve mats ≤ y ∧ y ≤ maxYears curve mats then
      some (l, y) else none) = some (l, y)
    rw [if_pos ⟨h1, h2⟩]

/-- With exactly two known abscissae the bracket scan of the `'linear'`
method always selects index 0. -/
theorem findLowerIdx_two (knownX : List ℚ) (x : ℚ) (h : knownX.length = 2) :
    findLowerIdx knownX x = 0 := by
  rw [findLowerIdx, h]
  show findLowerIdxAux knownX x [0] = 0
  simp only [findLowerIdxAux]
  exact ite_self 0

/-- With exactly two known points the spline estimator and the linear
estimator compute identical estimate lists. -/
theorem computeEstimates_two (exp : ℚ → ℚ) (knownX knownY targetX : List ℚ)
    (h : knownX.length = 2) :
    computeEstimates exp "cubic-spline" knownX knownY targetX =
      computeEstimates exp "linear" knownX knownY targetX := by
  simp only [computeEstimates, if_true, if_false]
  simp only [cubicSplineInterpolate, h]
  norm_num
  intro hne x hx
  rw [findLowerIdx_two knownX x h]

/-! ### Characterization of the maturity-label matcher -/

/-- `matchUnit` succeeds exactly on a nonempty digit string followed by the
unit character, and returns the parsed digits. -/
theorem matchUnit_eq_some (cs : List Char) (u : Char) (n : Nat) :
    matchUnit cs u = some n ↔
      ∃ ds, cs = ds ++ [u] ∧ ds ≠ [] ∧ ds.all Char.isDigit = true ∧
        n = digitsToNat ds := by
  unfold matchUnit
  split_ifs with h
  · obtain ⟨h1, h2, h3⟩ := h
    constructor
    · intro he
      have hne : cs ≠ [] := by
        intro hc
        rw [hc] at h2
        exact h2 rfl
      refine ⟨cs.dropLast, ?_, h2, h3, (Option.some.inj he).symm⟩
      conv_lhs => rw [← List.dropLast_append_getLast hne]
      have hg := List.getLast?_eq_getLast cs hne
      rw [hg] at h1
      rw [Option.some.inj h1]
    · rintro ⟨ds, rfl, hne, hdig, hn⟩
      rw [hn, List.dropLast_concat]
  · constructor
    · intro he
      exact absurd he (by simp)
    · rintro ⟨ds, rfl, hne, hdig, hn⟩
      exact absurd ⟨List.getLast?_concat _, by rw [List.dropLast_concat]; exact hne,
        by rw [List.dropLast_concat]; exact hdig⟩ h

/-- `matchUnit` fails whenever the list ends in a different character. -/
theorem matchUnit_ne_unit (cs : List Char) (u v : Char) (ds : List Char)
    (h : cs = ds ++ [v]) (huv : v ≠ u) : matchUnit cs u = none := by
  unfold matchUnit
  rw [if_neg]
  intro hc
  rw [h, List.getLast?_concat] at hc
  exact huv (Option.some.inj hc.1)

/-- A normalized label of the form digits + `'M'` parses to `N / 12`. -/
theorem maturityToYears_month (s : String) (ds : List Char)
    (h : normalizeLabel s = ds ++ ['M']) (hne : ds ≠ [])
    (hdig : ds.all Char.isDigit = true) :
    maturityToYears s = some ((digitsToNat ds : ℚ) / 12) := by
  have hm : matchUnit (normalizeLabel s) 'M' = some (digitsToNat ds) :=
    (matchUnit_eq_some _ _ _).2 ⟨ds, h, hne, hdig, rfl⟩
  simp only [maturityToYears]
  rw [hm]

/-- A normalized label of the form digits + `'Y'` parses to `N`. -/
theorem maturityToYears_year (s : String) (ds : List Char)
    (h : normalizeLabel s = ds ++ ['Y']) (hne : ds ≠ [])
    (hdig : ds.all Char.isDigit = true) :
    maturityToYears s = some (digitsToNat ds : ℚ) := by
  have hM : matchUnit (normalizeLabel s) 'M' = none :=
    matchUnit_ne_unit _ 'M' 'Y' ds h (by decide)
  have hy : matchUnit (normalizeLabel s) 'Y' = some (digitsToNat ds) :=
    (matchUnit_eq_some _ _ _).2 ⟨ds, h, hne, hdig, rfl⟩
  simp only [maturityToYears]
  rw [hM, hy]

/-- A normalized label of the form digits + `'W'` parses to `N / 52`. -/
theorem maturityToYears_week (s : String) (ds : List Char)
    (h : normalizeLabel s = ds ++ ['W']) (hne : ds ≠ [])
    (hdig : ds.all Char.isDigit = true) :
    maturityToYears s = some ((digitsToNat ds : ℚ) / 52) := by
  have hM : matchUnit (normalizeLabel s) 'M' = none :=
    matchUnit_ne_unit _ 'M' 'W' ds h (by decide)
  have hY : matchUnit (normalizeLabel s) 'Y' = none :=
    matchUnit_ne_unit _ 'Y' 'W' ds h (by decide)
  have hw : matchUnit (normalizeLabel s) 'W' = some (digitsToNat ds) :=
    (matchUnit_eq_some _ _ _).2 ⟨ds, h, hne, hdig, rfl⟩
  simp only [maturityToYears]
  rw [hM, hY, hw]

/-- Parsing succeeds only on labels whose normalized form is a nonempty
digit string followed by one of the three unit characters: everything else
yields the failure sentinel. -/
theorem maturityToYears_some_pattern (s : String) (hy : maturityToYears s ≠ none) :
    ∃ ds u, normalizeLabel s = ds ++ [u] ∧ ds ≠ [] ∧ ds.all Char.isDigit = true ∧
      (u = 'M' ∨ u = 'Y' ∨ u = 'W') := by
  simp only [maturityToYears] at hy
  cases hM : matchUnit (normalizeLabel s) 'M' with
  | some n =>
    obtain ⟨ds, h1, h2, h3, _⟩ := (matchUnit_eq_some _ _ _).1 hM
    exact ⟨ds, 'M', h1, h2, h3, Or.inl rfl⟩
  | none =>
    rw [hM] at hy
    cases hY : matchUnit (normalizeLabel s) 'Y' with
    | some n =>
      obtain ⟨ds, h1, h2, h3, _⟩ := (matchUnit_eq_some _ _ _).1 hY
      exact ⟨ds, 'Y', h1, h2, h3, Or.inr (Or.inl rfl)⟩
    | none =>
      rw [hY] at hy
      cases hW : matchUnit (normalizeLabel s) 'W' with
      | some n =>
        obtain ⟨ds, h1, h2, h3, _⟩ := (matchUnit_eq_some _ _ _).1 hW
        exact ⟨ds, 'W', h1, h2, h3, Or.inr (Or.inr rfl)⟩
      | none =>
        rw [hW] at hy
        exact absurd rfl hy

/-! ### Lemmas about the Nelson-Siegel fitter -/

/-- After every gradient-descent update, `lambda` is clamped to at least
`0.1`. -/
theorem nsStep_lambda_ge (exp : ℚ → ℚ) (mats ylds : List ℚ)
    (p : NelsonSiegelParams) : (0.1 : ℚ) ≤ ((nsStep exp mats ylds p).1).lambda :=
  le_max_left _ _

/-- The iteration loop preserves the `lambda ≥ 0.1` invariant. -/
theorem nsIterate_lambda_ge (exp : ℚ → ℚ) (mats ylds : List ℚ) :
    ∀ fuel p, (0.1 : ℚ) ≤ p.lambda →
      (0.1 : ℚ) ≤ (nsIterate exp mats ylds fuel p).lambda := by
  intro fuel
  induction fuel with
  | zero => intro p h; exact h
  | succ k ih =>
    intro p h
    simp only [nsIterate]
    split
    · exact nsStep_lambda_ge exp mats ylds p
    · exact ih _ (nsStep_lambda_ge exp mats ylds p)

/-- The fitted parameters always satisfy `lambda ≥ 0.1`. -/
theorem fitNelsonSiegel_lambda_ge (exp : ℚ → ℚ) (mats ylds : List ℚ) :
    (0.1 : ℚ) ≤ (fitNelsonSiegel exp mats ylds).lambda := by
  simp only [fitNelsonSiegel]
  split_ifs with h
  · show (0.1 : ℚ) ≤ (1.5 : ℚ)
    norm_num
  · exact nsIterate_lambda_ge exp mats ylds 500 _ (by show (0.1:ℚ) ≤ (1.5:ℚ); norm_num)

/-- The degenerate fallback (< 3 points) returns `lambda = 1.5`. -/
theorem fitNelsonSiegel_fallback_lambda (exp : ℚ → ℚ) (mats ylds : List ℚ)
    (h : mats.length < 3) : (fitNelsonSiegel exp mats ylds).lambda = 1.5 := by
  simp only [fitNelsonSiegel]
  rw [if_pos h]

/-! ### Concrete fixtures -/

/-- A placeholder for `Math.exp` in concrete runs that never reach the
Nelson-Siegel path. -/
def expStub : ℚ → ℚ := fun _ => 0

/-- The end-to-end scenario's sparse curve: 1Y = 2.00, 5Y = 3.00,
10Y = 3.50, everything else null. -/
def demoRates : String → Option ℚ := fun m =>
  if m = "1Y" then some 2 else if m = "5Y" then some 3
  else if m = "10Y" then some (7/2) else none

/-- The end-to-end scenario's curve record. -/
def demoCurve : CountryYieldData := ⟨"Demo", "demo", demoRates, none, none⟩

/-- The end-to-end scenario's full maturity list. -/
def demoMats : List String := ["1Y", "2Y", "5Y", "7Y", "10Y", "20Y"]

/-- A curve whose null label `"12M"` parses to the same year-fraction as
the known minimum label `"1Y"`. -/
def boundaryRates : String → Option ℚ := fun m =>
  if m = "1Y" then some 2 else if m = "5Y" then some 3 else none

/-- Curve record for the boundary-label scenario. -/
def boundaryCurve : CountryYieldData := ⟨"B", "b", boundaryRates, none, none⟩

/-- Maturity list for the boundary-label scenario. -/
def boundaryMats : List String := ["1Y", "12M", "5Y"]

/-- A curve with a single known point. -/
def lonePointCurve : CountryYieldData :=
  ⟨"L", "l", fun m => if m = "1Y" then some 2 else none, none, none⟩

/-- A curve with exactly two known points. -/
def twoPointCurve : CountryYieldData :=
  ⟨"T", "t", fun m => if m = "1Y" then some 2 else if m = "5Y" then some 3 else none,
    none, none⟩

/-- Maturity list for the two-point scenario. -/
def twoPointMats : List String := ["1Y", "3Y", "5Y"]

/-! ### Claims -/

/-- C1: for every input curve with at least 2 known (non-null, parseable)
points, every rate that is non-null in the input curve is present and
identical in the output of `bootstrapYieldCurve`, for every method: the
merge only writes to maturity labels whose input rate is null, so known
values are never overwritten. -/
theorem bootstrap_preserves_known (exp : ℚ → ℚ) (curve : CountryYieldData)
    (mats : List String) (method : String) (l : String) (r : ℚ)
    (_hk : 2 ≤ (extractKnownPoints curve mats).length)
    (hr : curve.rates l = some r) :
    (bootstrapYieldCurve exp curve mats method).rates l = some r := by
  unfold bootstrapYieldCurve
  split_ifs with h1 h2
  · exact hr
  · exact hr
  · refine (mergeRates_not_mem curve.rates (targetsOf curve mats) _ l ?_).trans hr
    rintro ⟨m, y⟩ hp rfl
    have hnull := ((mem_targetsOf curve mats m y).1 hp).2.1
    rw [hnull] at hr
    exact absurd hr (by simp)

/-- Witness for C1 on the end-to-end fixture: the known 1Y rate survives a
linear bootstrap bit-for-bit. -/
theorem bootstrap_preserves_known_witness :
    (bootstrapYieldCurve expStub demoCurve demoMats "linear").rates "1Y" = some 2 :=
  bootstrap_preserves_known expStub demoCurve demoMats "linear" "1Y" 2
    (by with_unfolding_all decide) (by with_unfolding_all decide)

/-- C2: running `bootstrapYieldCurve` with method `'linear'` on the curve
{1Y: 2.00, 5Y: 3.00, 10Y: 3.50} over [1Y, 2Y, 5Y, 7Y, 10Y, 20Y] produces
exactly 2Y = 2.25, 7Y = 3.20, leaves 20Y null, and leaves 1Y, 5Y, 10Y
unchanged. -/
theorem bootstrap_linear_demo :
    (bootstrapYieldCurve expStub demoCurve demoMats "linear").rates "2Y" = some (9/4) ∧
    (bootstrapYieldCurve expStub demoCurve demoMats "linear").rates "7Y" = some (16/5) ∧
    (bootstrapYieldCurve expStub demoCurve demoMats "linear").rates "20Y" = none ∧
    (bootstrapYieldCurve expStub demoCurve demoMats "linear").rates "1Y" = some 2 ∧
    (bootstrapYieldCurve expStub demoCurve demoMats "linear").rates "5Y" = some 3 ∧
    (bootstrapYieldCurve expStub demoCurve demoMats "linear").rates "10Y" = some (7/2) := by
  with_unfolding_all decide

/-- C3: whenever fewer than 2 known points are extracted from the curve
over the maturity list, `bootstrapYieldCurve` returns the input curve
unchanged, for every method. -/
theorem bootstrap_insufficient_noop (exp : ℚ → ℚ) (curve : CountryYieldData)
    (mats : List String) (method : String)
    (h : (extractKnownPoints curve mats).length < 2) :
    bootstrapYieldCurve exp curve mats method = curve := by
  unfold bootstrapYieldCurve
  rw [if_pos h]

/-- Witness for C3: a single known point leaves the curve untouched. -/
theorem bootstrap_insufficient_noop_witness :
    bootstrapYieldCurve expStub lonePointCurve demoMats "cubic-spline" = lonePointCurve :=
  bootstrap_insufficient_noop expStub lonePointCurve demoMats "cubic-spline"
    (by with_unfolding_all decide)

/-- C4: for every curve and every method (hence for all three supported
methods, Nelson-Siegel included, which shares the same in-range target
set), a null entry whose label parses strictly below the minimum or
strictly above the maximum known year-fraction remains null in the output:
no extrapolation in the merged output. -/
theorem bootstrap_no_extrapolation (exp : ℚ → ℚ) (curve : CountryYieldData)
    (mats : List String) (method : String) (l : String) (y : ℚ)
    (hnull : curve.rates l = none) (hy : maturityToYears l = some y)
    (hout : y < minYears curve mats ∨ maxYears curve mats < y) :
    (bootstrapYieldCurve exp curve mats method).rates l = none := by
  unfold bootstrapYieldCurve
  split_ifs with h1 h2
  · exact hnull
  · exact hnull
  · refine (mergeRates_not_mem curve.rates (targetsOf curve mats) _ l ?_).trans hnull
    rintro ⟨m, y2⟩ hp rfl
    obtain ⟨_, _, hp2, hmin, hmax⟩ := (mem_targetsOf curve mats m y2).1 hp
    rw [hy] at hp2
    have hyy : y = y2 := Option.some.inj hp2
    subst hyy
    rcases hout with h | h
    · exact absurd hmin (not_le.2 h)
    · exact absurd hmax (not_le.2 h)

/-- Witness for C4: the 20Y label (beyond the 10Y maximum) stays null under
the nelson-siegel method. -/
theorem bootstrap_no_extrapolation_witness :
    (bootstrapYieldCurve expStub demoCurve demoMats "nelson-siegel").rates "20Y" = none :=
  bootstrap_no_extrapolation expStub demoCurve demoMats "nelson-siegel" "20Y" 20
    (by with_unfolding_all decide) (by with_unfolding_all decide)
    (Or.inr (by with_unfolding_all decide))

/-- C5 counterexample: the claim "a null-rate label whose year-fraction
equals the minimum known year-fraction is not a target and is left null"
fails on the code. On the curve {1Y: 2, 5Y: 3} with maturity list
[1Y, 12M, 5Y], the null label "12M" parses to 1 — exactly the minimum known
year-fraction — yet it is selected as a target and filled with 2.00 by the
linear method. -/
theorem targets_boundary_counterexample :
    ("12M", (1:ℚ)) ∈ targetsOf boundaryCurve boundaryMats ∧
    boundaryCurve.rates "12M" = none ∧
    maturityToYears "12M" = some (minYears boundaryCurve boundaryMats) ∧
    (bootstrapYieldCurve expStub boundaryCurve boundaryMats "linear").rates "12M" = some 2 := by
  with_unfolding_all decide

/-- C5 amended: the target set selected for estimation is exactly the
labels of the maturity list with a null rate whose year-fraction parses
into the closed interval [minimum known year-fraction, maximum known
year-fraction] — boundaries included, so a null label at the minimum or
maximum is a target. -/
theorem targets_closed_interval (curve : CountryYieldData) (mats : List String)
    (l : String) (y : ℚ) :
    (l, y) ∈ targetsOf curve mats ↔
      l ∈ mats ∧ curve.rates l = none ∧ maturityToYears l = some y ∧
        minYears curve mats ≤ y ∧ y ≤ maxYears curve mats :=
  mem_targetsOf curve mats l y

/-- C6: `bootstrapYieldCurve` is a total function on every input; its
output is structurally valid — same country and slug, and every rate entry
is either the input entry or a filled (`some`) value — and the merge step
drops a non-finite (`none`) estimate, leaving that entry as it was, while
the remaining target entries are still processed. -/
theorem bootstrap_total_merge_nonfinite :
    (∀ (exp : ℚ → ℚ) (curve : CountryYieldData) (mats : List String) (method : String),
      (bootstrapYieldCurve exp curve mats method).country = curve.country ∧
      (bootstrapYieldCurve exp curve mats method).slug = curve.slug ∧
      ∀ l, (bootstrapYieldCurve exp curve mats method).rates l = curve.rates l ∨
        ∃ q, (bootstrapYieldCurve exp curve mats method).rates l = some q) ∧
    (∀ (rates : String → Option ℚ) (m : String) (y : ℚ) (ms : List (String × ℚ))
        (ests : List (Option ℚ)),
      mergeRates rates ((m, y) :: ms) (none :: ests) = mergeRates rates ms ests) := by
  constructor
  · intro exp curve mats method
    refine ⟨?_, ?_, ?_⟩
    · unfold bootstrapYieldCurve
      split_ifs <;> rfl
    · unfold bootstrapYieldCurve
      split_ifs <;> rfl
    · intro l
      unfold bootstrapYieldCurve
      split_ifs
      · exact Or.inl rfl
      · exact Or.inl rfl
      · exact mergeRates_cases curve.rates _ _ l
  · intro rates m y ms ests
    rfl

/-- C7: on a curve with exactly 2 known points, the cubic-spline method
produces a result identical to the linear method, for every maturity list:
the spline estimator degrades to linear interpolation between the two
points. -/
theorem bootstrap_spline_eq_linear_two (exp : ℚ → ℚ) (curve : CountryYieldData)
    (mats : List String) (h : (extractKnownPoints curve mats).length = 2) :
    bootstrapYieldCurve exp curve mats "cubic-spline" =
      bootstrapYieldCurve exp curve mats "linear" := by
  have hX : (knownXs curve mats).length = 2 := by
    rw [knownXs, List.length_map, sortedKnown, List.length_insertionSort, h]
  unfold bootstrapYieldCurve
  rw [computeEstimates_two exp (knownXs curve mats) (knownYs curve mats) _ hX]

/-- Witness for C7: a two-point curve bootstrapped with either method gives
the same output curve. -/
theorem bootstrap_spline_eq_linear_two_witness :
    bootstrapYieldCurve expStub twoPointCurve twoPointMats "cubic-spline" =
      bootstrapYieldCurve expStub twoPointCurve twoPointMats "linear" :=
  bootstrap_spline_eq_linear_two expStub twoPointCurve twoPointMats
    (by with_unfolding_all decide)

/-- C8: in `fitNelsonSiegel`, `lambda` is at least 0.1 after every
gradient-descent update (the clamp is applied on every iteration), so the
returned parameters always have `lambda ≥ 0.1` — strictly positive — for
every input and every model of `Math.exp`, including the fewer-than-3-point
fallback, where `lambda = 1.5`. -/
theorem fitNelsonSiegel_lambda_clamped :
    (∀ (exp : ℚ → ℚ) (mats ylds : List ℚ) (p : NelsonSiegelParams),
      (0.1 : ℚ) ≤ ((nsStep exp mats ylds p).1).lambda) ∧
    (∀ (exp : ℚ → ℚ) (mats ylds : List ℚ),
      (0.1 : ℚ) ≤ (fitNelsonSiegel exp mats ylds).lambda) ∧
    (∀ (exp : ℚ → ℚ) (mats ylds : List ℚ), mats.length < 3 →
      (fitNelsonSiegel exp mats ylds).lambda = 1.5) :=
  ⟨nsStep_lambda_ge, fitNelsonSiegel_lambda_ge, fitNelsonSiegel_fallback_lambda⟩

/-- Witness for C8 on a one-point fit: the fallback fires and the returned
`lambda` is 1.5, hence at least 0.1. -/
theorem fitNelsonSiegel_lambda_clamped_witness :
    ([(1:ℚ)].length < 3) ∧ (fitNelsonSiegel expStub [(1:ℚ)] [(5:ℚ)]).lambda = 1.5 ∧
    (0.1 : ℚ) ≤ (fitNelsonSiegel expStub [(1:ℚ)] [(5:ℚ)]).lambda :=
  ⟨by decide, fitNelsonSiegel_lambda_clamped.2.2 expStub [1] [5] (by decide),
   fitNelsonSiegel_lambda_clamped.2.1 expStub [1] [5]⟩

/-- C9: `maturityToYears` returns 10 for "10Y", 0.25 for "3M", 1/52 for
"1W", and the failure sentinel for "abc"; parsing is case-insensitive and
ignores surrounding whitespace (" 10y " parses to 10); it succeeds only on
anchored digits-plus-unit labels, mapping months to N/12, years to N, and
weeks to N/52. -/
theorem maturityToYears_spec :
    maturityToYears "10Y" = some 10 ∧
    maturityToYears "3M" = some (1/4) ∧
    maturityToYears "1W" = some (1/52) ∧
    maturityToYears "abc" = none ∧
    maturityToYears " 10y " = some 10 ∧
    (∀ s, maturityToYears s ≠ none →
      ∃ ds u, normalizeLabel s = ds ++ [u] ∧ ds ≠ [] ∧ ds.all Char.isDigit = true ∧
        (u = 'M' ∨ u = 'Y' ∨ u = 'W')) ∧
    (∀ s ds, normalizeLabel s = ds ++ ['M'] → ds ≠ [] → ds.all Char.isDigit = true →
      maturityToYears s = some ((digitsToNat ds : ℚ) / 12)) ∧
    (∀ s ds, normalizeLabel s = ds ++ ['Y'] → ds ≠ [] → ds.all Char.isDigit = true →
      maturityToYears s = some (digitsToNat ds : ℚ)) ∧
    (∀ s ds, normalizeLabel s = ds ++ ['W'] → ds ≠ [] → ds.all Char.isDigit = true →
      maturityToYears s = some ((digitsToNat ds : ℚ) / 52)) :=
  ⟨by with_unfolding_all decide, by with_unfolding_all decide,
   by with_unfolding_all decide, by with_unfolding_all decide,
   by with_unfolding_all decide, maturityToYears_some_pattern,
   maturityToYears_month, maturityToYears_year, maturityToYears_week⟩

/-- Witness for C9's conditional clauses at concrete labels: "7m"
normalizes to digits + month unit and parses to 7/12, and "26w" parses, so
its normalized form decomposes into digits plus a unit. -/
theorem maturityToYears_spec_witness :
    maturityToYears "7m" = some (7/12) ∧
    (∃ ds u, normalizeLabel "26w" = ds ++ [u] ∧ ds ≠ [] ∧ ds.all Char.isDigit = true ∧
      (u = 'M' ∨ u = 'Y' ∨ u = 'W')) :=
  ⟨(maturityToYears_spec.2.2.2.2.2.2.1 "7m" ['7'] (by with_unfolding_all decide)
      (by decide) (by decide)).trans (by with_unfolding_all decide),
   maturityToYears_spec.2.2.2.2.2.1 "26w" (by with_unfolding_all decide)⟩

/-- C10: for every method string other than the three supported names, the
default dispatch branch produces a non-finite estimate for every target,
every one is dropped by the merge's finiteness check, and the output's rate
map equals the input's rate map. -/
theorem bootstrap_unknown_method_noop (exp : ℚ → ℚ) (curve : CountryYieldData)
    (mats : List String) (method : String)
    (h1 : method ≠ "linear") (h2 : method ≠ "cubic-spline")
    (h3 : method ≠ "nelson-siegel") :
    (bootstrapYieldCurve exp curve mats method).rates = curve.rates := by
  unfold bootstrapYieldCurve
  split_ifs
  · rfl
  · rfl
  · show mergeRates curve.rates (targetsOf curve mats) _ = curve.rates
    simp only [computeEstimates, if_neg h1, if_neg h2, if_neg h3]
    refine mergeRates_allNone _ _ _ (fun e he => ?_)
    obtain ⟨x, hx1, hx2⟩ := List.mem_map.1 he
    exact hx2.symm

/-- Witness for C10: an unsupported method name leaves the demo curve's
rate map untouched. -/
theorem bootstrap_unknown_method_noop_witness :
    (bootstrapYieldCurve expStub demoCurve demoMats "quadratic").rates = demoCurve.rates :=
  bootstrap_unknown_method_noop expStub demoCurve demoMats "quadratic"
    (by decide) (by decide) (by decide)
